import Mathlib

/-!
Verification development for a local Ollama chat client
(`chatbot.py`): a streaming protocol client plus conversation
reconciliation engine.  The definitions below are a shallow embedding of
the source: decoded JSON payloads are modelled by an inductive `Json`
type (numbers as integers; floating payloads never occur in the claims),
Python dictionaries by association lists with unique keys, and Python
truthiness (`or`, `if x:`) by explicit `jTruthy`/`optTruthy` functions.
-/

namespace Chatbot

/-- A decoded JSON value, as produced by `json.loads`.  Numbers are
modelled as integers; the object fields keep insertion order, mirroring
Python dictionaries. -/
inductive Json where
  | null
  | bool (b : Bool)
  | num (n : Int)
  | str (s : String)
  | arr (items : List Json)
  | obj (fields : List (String × Json))

/-- `d.get(k)` on a Python dict modelled as an association list. -/
def jGet : List (String × Json) → String → Option Json
  | [], _ => none
  | (k, v) :: rest, key => if k = key then some v else jGet rest key

/-- Python truthiness of a decoded JSON value (`bool(x)`). -/
def jTruthy : Json → Bool
  | .null => false
  | .bool b => b
  | .num n => n != 0
  | .str s => s != ""
  | .arr xs => !xs.isEmpty
  | .obj fs => !fs.isEmpty

/-- Python `a or b` on two optional JSON values (a missing key is
`None`, hence falsy). -/
def pyOrOpt (a b : Option Json) : Option Json :=
  match a with
  | some j => if jTruthy j then some j else b
  | none => b

/-- Python truthiness of an optional string attribute (`None` and `""`
are falsy). -/
def optTruthy : Option String → Bool
  | none => false
  | some s => s != ""

/-- Characters stripped by Python `str.strip()` (ASCII whitespace). -/
def isPySpace (c : Char) : Bool :=
  c == ' ' || c == '\t' || c == '\n' || c == '\r' || c == '\x0b' || c == '\x0c'

/-- Python `str.strip()`. -/
def pyStrip (s : String) : String :=
  String.mk (((s.data.dropWhile isPySpace).reverse.dropWhile isPySpace).reverse)

/-- Concatenation of a fragment list with no separator
(`"".join(parts)`). -/
def concatFragments : List String → String
  | [] => ""
  | c :: cs => c ++ concatFragments cs

/-- A single quote character, used by the Python `repr` model. -/
def sq : String := (Char.ofNat 39).toString

mutual
/-- Python `repr` of a decoded JSON value.  String escaping inside
`repr` is not modelled (no claim depends on it); container `repr` uses
the CPython layout. -/
def pyRepr : Json → String
  | .null => "None"
  | .bool true => "True"
  | .bool false => "False"
  | .num n => toString n
  | .str s => sq ++ s ++ sq
  | .arr xs => "[" ++ pyReprItems xs ++ "]"
  | .obj fs => "\x7b" ++ pyReprFields fs ++ "\x7d"

/-- Comma-separated `repr` of list items. -/
def pyReprItems : List Json → String
  | [] => ""
  | [x] => pyRepr x
  | x :: rest => pyRepr x ++ ", " ++ pyReprItems rest

/-- Comma-separated `repr` of dict entries. -/
def pyReprFields : List (String × Json) → String
  | [] => ""
  | [(k, v)] => sq ++ k ++ sq ++ ": " ++ pyRepr v
  | (k, v) :: rest => sq ++ k ++ sq ++ ": " ++ pyRepr v ++ ", " ++ pyReprFields rest
end

/-- Python `str` of a decoded JSON value. -/
def pyStr : Json → String
  | .str s => s
  | j => pyRepr j

/-! ## ContentExtractor: `extract_text_from_obj` (chatbot.py lines 40-90) -/

/-- The fixed priority keys probed first by `extract_text_from_obj`. -/
def keys5 : List String := ["response", "text", "generated_text", "output_text", "content"]

/-- `for k in keys: v = obj.get(k); if isinstance(v, str): return v`. -/
def firstStringIn (fields : List (String × Json)) : List String → Option String
  | [] => none
  | k :: ks =>
    match jGet fields k with
    | some (.str s) => some s
    | _ => firstStringIn fields ks

/-- One entry of the message-parts comprehension:
`p.get("text") or p.get("content")`, kept only when the result is a
string and `p` is a dict. -/
def partText (p : Json) : Option String :=
  match p with
  | .obj pf =>
    match pyOrOpt (jGet pf "text") (jGet pf "content") with
    | some (.str s) => some s
    | _ => none
  | _ => none

/-- The body of the `message`/`msg` block of `extract_text_from_obj`,
applied to the embedded message dict. -/
def msgFieldExtract (mf : List (String × Json)) : Option String :=
  match jGet mf "content" with
  | some (.str s) => some s
  | _ =>
    match jGet mf "text" with
    | some (.str s) => some s
    | _ =>
      match jGet mf "content" with
      | some (.arr parts) =>
        let ps := parts.filterMap partText
        if ps = [] then none else some (concatFragments ps)
      | _ => none

/-- `msg = obj.get("message") or obj.get("msg")` followed by the
message block (returns `none` when the block falls through). -/
def msgExtract (fields : List (String × Json)) : Option String :=
  match pyOrOpt (jGet fields "message") (jGet fields "msg") with
  | some (.obj mf) => msgFieldExtract mf
  | _ => none

/-- The `delta` block of `extract_text_from_obj`. -/
def deltaExtract (fields : List (String × Json)) : Option String :=
  match jGet fields "delta" with
  | some (.obj df) =>
    match jGet df "content" with
    | some (.str s) => some s
    | _ =>
      match jGet df "text" with
      | some (.str s) => some s
      | _ => none
  | _ => none

/-- One entry of the `choices` loop: a direct `text` string, else a
nested `message.content` string, else a nested `delta.content`
string. -/
def choiceDeltaText (cf : List (String × Json)) : Option String :=
  match jGet cf "delta" with
  | some (.obj df) =>
    match jGet df "content" with
    | some (.str s) => some s
    | _ => none
  | _ => none

/-- Text contributed by one `choices` entry. -/
def choiceText (ch : Json) : Option String :=
  match ch with
  | .obj cf =>
    match jGet cf "text" with
    | some (.str s) => some s
    | _ =>
      match jGet cf "message" with
      | some (.obj mf) =>
        match jGet mf "content" with
        | some (.str s) => some s
        | _ => choiceDeltaText cf
      | _ => choiceDeltaText cf
  | _ => none

/-- The `choices` block of `extract_text_from_obj`. -/
def choicesExtract (fields : List (String × Json)) : Option String :=
  match jGet fields "choices" with
  | some (.arr chs) =>
    let ts := chs.filterMap choiceText
    if ts = [] then none else some (concatFragments ts)
  | _ => none

/-- `extract_text_from_obj` (chatbot.py lines 40-90): shape-tolerant
extraction of a text fragment from a decoded JSON value. -/
def extract_text_from_obj : Json → Option String
  | .str s => some s
  | .obj fields =>
    match firstStringIn fields keys5 with
    | some s => some s
    | none =>
      match msgExtract fields with
      | some s => some s
      | none =>
        match deltaExtract fields with
        | some s => some s
        | none => choicesExtract fields
  | _ => none

/-- Is this optional JSON value present and a string?
(`isinstance(d.get(k), str)`). -/
def optIsStr : Option Json → Bool
  | some (.str _) => true
  | _ => false

/-- Shape category 2 of the spec (§4.1): the object holds a
string-valued field among the five priority keys. -/
def priorityMatch (fields : List (String × Json)) : Bool :=
  keys5.any (fun k => optIsStr (jGet fields k))

/-- Match condition of shape category 3 on the embedded message dict:
a `content` or `text` string field, or a `content` parts list with at
least one contributing part. -/
def msgFieldMatch (mf : List (String × Json)) : Bool :=
  optIsStr (jGet mf "content") || optIsStr (jGet mf "text")
  || (match jGet mf "content" with
      | some (.arr parts) => !(parts.filterMap partText).isEmpty
      | _ => false)

/-- Shape category 3 of the spec (§4.1): a truthy embedded `message`
(or `msg`) dict whose fields match. -/
def msgMatch (fields : List (String × Json)) : Bool :=
  match pyOrOpt (jGet fields "message") (jGet fields "msg") with
  | some (.obj mf) => msgFieldMatch mf
  | _ => false

/-- Shape category 4 of the spec (§4.1): an embedded `delta` dict with
a `content` or `text` string field. -/
def deltaMatch (fields : List (String × Json)) : Bool :=
  match jGet fields "delta" with
  | some (.obj df) => optIsStr (jGet df "content") || optIsStr (jGet df "text")
  | _ => false

/-- Shape category 5 of the spec (§4.1): a `choices` list with at
least one contributing entry. -/
def choicesMatch (fields : List (String × Json)) : Bool :=
  match jGet fields "choices" with
  | some (.arr chs) => !(chs.filterMap choiceText).isEmpty
  | _ => false

/-- The spec's five ContentExtractor shape categories (§4.1), written
from the spec's category descriptions for comparison with the source
extractor: a value matches iff it is a string itself, or it is an
object satisfying the priority-field, message, delta or choices
category. -/
def matchesShapeCategory : Json → Bool
  | .str _ => true
  | .obj fields =>
    priorityMatch fields || msgMatch fields || deltaMatch fields || choicesMatch fields
  | _ => false

example : extract_text_from_obj (.obj [("response", .str "hi")]) = some "hi" := by decide
example : extract_text_from_obj (.obj [("message", .obj [("content", .arr [.obj [("text", .str "a")], .num 3, .obj [("content", .str "b")]])])]) = some "ab" := by decide
example : extract_text_from_obj (.num 7) = none := by decide
example : extract_text_from_obj (.obj [("choices", .arr [.obj [("text", .str "x")], .obj [("delta", .obj [("content", .str "y")])]])]) = some "xy" := by decide

/-! ## StreamDecoder: line handling of `OllamaClient.chat_stream`
(chatbot.py lines 129-143).  JSON decoding (`json.loads`) is a library
call; it is abstracted as a `decode` parameter returning `none` on a
`JSONDecodeError`. -/

/-- Fragments emitted for one raw line of the streaming response:
empty lines are skipped; a line that decodes and yields an extraction
emits the extracted text; otherwise the raw line is emitted
verbatim. -/
def processLine (decode : String → Option Json) (line : String) : List String :=
  if line = "" then []
  else
    match decode line with
    | some obj =>
      match extract_text_from_obj obj with
      | some t => [t]
      | none => [line]
    | none => [line]

/-- The fragment sequence produced by `chat_stream` from the raw line
sequence of an open connection. -/
def chat_stream_lines (decode : String → Option Json) (lines : List String) : List String :=
  (lines.map (processLine decode)).flatten

/-! ## TransportClient: `list_models` and the listbox normalization of
`refresh_models` (chatbot.py lines 100-109 and 483-511). -/

/-- `OllamaClient.list_models`: unwrap a `tags` field when the decoded
body is a dict containing one, else return the body unchanged. -/
def list_models (data : Json) : Json :=
  match data with
  | .obj fields =>
    match jGet fields "tags" with
    | some v => v
    | none => data
  | _ => data

/-- One entry of the `refresh_models` comprehension:
`m if isinstance(m, str) else (m.get("name") if isinstance(m, dict)
else str(m))`.  The result is a Python value (`none` models Python
`None` from a missing `name`). -/
def modelEntryName (m : Json) : Option Json :=
  match m with
  | .str _ => some m
  | .obj fields => jGet fields "name"
  | _ => some (.str (pyStr m))

/-- `ensure_str` applied when inserting a computed name into the
listbox (non-bytes values go through `str`). -/
def displayModelName (o : Option Json) : String :=
  match o with
  | none => "None"
  | some j => pyStr j

/-- `for v in models.values(): if isinstance(v, list): ...; break` —
the first list-valued entry of a dict. -/
def findFirstList : List (String × Json) → Option (List Json)
  | [] => none
  | (_, .arr xs) :: _ => some xs
  | _ :: rest => findFirstList rest

/-- The normalized model-name list computed by the `refresh_models`
worker from the value returned by `list_models`. -/
def refresh_model_names (models : Json) : List String :=
  match models with
  | .obj fields =>
    match findFirstList fields with
    | some xs => xs.map (fun m => displayModelName (modelEntryName m))
    | none => []
  | .arr ms => ms.map (fun m => displayModelName (modelEntryName m))
  | _ => [pyStr models]

/-- The full listing pipeline: decode body, `list_models`, then the
`refresh_models` normalization. -/
def listed_model_names (data : Json) : List String :=
  refresh_model_names (list_models data)

/-- The identifier the spec assigns to one model entry: the plain
string itself, or the object's `name` field, or otherwise its string
representation.  Follows the claim's words, for comparison with the
source pipeline. -/
def claimIdentifier (e : Json) : String :=
  match e with
  | .str s => s
  | .obj fields =>
    match jGet fields "name" with
    | some (.str s) => s
    | some j => pyStr j
    | none => pyStr e
  | _ => pyStr e

example : listed_model_names (.obj [("tags", .arr [.str "llama", .obj [("name", .str "qwen")]])]) = ["llama", "qwen"] := by decide

/-! ## ConversationStore and SessionController
(`ChatApp`: `histories`, `handle_special_token`, `on_send`,
`on_model_select`, `_stream_response`). -/

/-- One entry of a per-model history list (`self.histories[model]`). -/
inductive Turn where
  | user (text : String)
  | assistant (text : String)
  | image (path : String) (caption : Option String)
deriving DecidableEq

/-- `self.histories`: a dict from model name to turn list, modelled as
an association list with unique keys in insertion order. -/
abbrev Histories := List (String × List Turn)

/-- Membership test (`model in self.histories`). -/
def hasModel : Histories → String → Bool
  | [], _ => false
  | (k, _) :: rest, m => k == m || hasModel rest m

/-- `self.histories.get(model, [])`. -/
def turnsFor : Histories → String → List Turn
  | [], _ => []
  | (k, ts) :: rest, m => if k = m then ts else turnsFor rest m

/-- Update of one dict entry when appending a turn under key `m`. -/
def bumpEntry (m : String) (t : Turn) : String × List Turn → String × List Turn
  | (k, ts) => if k = m then (k, ts ++ [t]) else (k, ts)

/-- `self.histories.setdefault(model, []).append(turn)`. -/
def appendTurn (hs : Histories) (m : String) (t : Turn) : Histories :=
  if hasModel hs m then hs.map (bumpEntry m t)
  else hs ++ [(m, [t])]

/-- Update of one dict entry when clearing key `m`. -/
def clearEntry (m : String) : String × List Turn → String × List Turn
  | (k, ts) => if k = m then (k, []) else (k, ts)

/-- `if model in self.histories: self.histories[model] = []`. -/
def clearHistory (hs : Histories) (m : String) : Histories :=
  hs.map (clearEntry m)

/-- The reserved control tokens of `ChatApp`. -/
def CLEAR_TOKEN : String := "§"

/-- Control token starting the model. -/
def START_TOKEN : String := "▶"

/-- Control token stopping the model. -/
def STOP_TOKEN : String := "■"

/-- The mutable fields of `ChatApp` that the claims touch.  The
transcript widget is modelled by its text content (`sink`); embedded
image glyphs are not part of the text. -/
structure AppState where
  current_model : Option String
  histories : Histories
  model_running : Bool
  input : String
  attached_image_path : Option String
  sink : String
deriving DecidableEq

/-- Insert a block at the end of the transcript, preceded by a blank
separator when the existing text is non-whitespace. -/
def insertBlock (sink blk : String) : String :=
  let sep := if pyStrip sink ≠ "" then "\n\n" else ""
  sink ++ sep ++ blk

/-- `ChatApp._insert_user_text`. -/
def insertUserText (sink txt : String) : String :=
  insertBlock sink ("User: " ++ txt ++ "\n")

/-- `ChatApp._insert_assistant_text` (text layer only). -/
def insertAssistantText (sink txt : String) : String :=
  insertBlock sink ("Assistant: " ++ txt ++ "\n")

/-- Text inserted by `ChatApp.append_image`: the separator, the image
glyph (not text), then the caption line or a bare newline. -/
def appendImageSink (sink : String) (caption : Option String) : String :=
  let s1 := insertBlock sink ""
  match caption with
  | some c => if c ≠ "" then s1 ++ "\n" ++ c ++ "\n" else s1 ++ "\n"
  | none => s1 ++ "\n"

/-- `ChatApp.append_user` with `record=True`: append the user turn to
the current model's history when a model is selected, and show it. -/
def append_user (s : AppState) (txt : String) : AppState :=
  let hs :=
    match s.current_model with
    | some m => if m ≠ "" then appendTurn s.histories m (.user txt) else s.histories
    | none => s.histories
  { s with histories := hs, sink := insertUserText s.sink txt }

/-- `ChatApp.handle_special_token` (chatbot.py lines 577-614). -/
def handle_special_token (s : AppState) (token : String) : AppState :=
  if token = CLEAR_TOKEN then
    match s.current_model with
    | some m =>
      if m ≠ "" then { s with sink := "", histories := clearHistory s.histories m } else s
    | none => s
  else if token = START_TOKEN then
    if s.model_running then s else { s with model_running := true }
  else if token = STOP_TOKEN then
    if s.model_running then { s with model_running := false } else s
  else s

/-- A chat request message (`{"role", "content", "images"?}`). -/
structure Message where
  role : String
  content : String
  images : Option (List String)
deriving DecidableEq

/-- The fixed system instruction prefixed to every request
(chatbot.py lines 652-661). -/
def system_prompt : Message :=
  { role := "system",
    content := "You are an assistant that describes images.\nWhen a user message contains an attached image, treat that image as the primary content.\nDo not mention upload mechanisms.\nOnly describe visible content.",
    images := none }

/-- `ChatApp.on_send` (chatbot.py lines 617-689).  `readImage` models
reading and base64-encoding the attached file (`none` = IOError).  The
second component is the launched background stream request: `none`
means no network connection is opened. -/
def on_send (readImage : String → Option String) (s : AppState) :
    AppState × Option (String × List Message) :=
  match s.current_model with
  | none => (s, none)
  | some m =>
    if m = "" then (s, none)
    else
      let user_text := pyStrip s.input
      let hasImage := optTruthy s.attached_image_path
      if user_text = "" ∧ hasImage = false then (s, none)
      else if (user_text = CLEAR_TOKEN ∨ user_text = START_TOKEN ∨ user_text = STOP_TOKEN)
          ∧ hasImage = false then
        ({ handle_special_token s user_text with input := "" }, none)
      else if s.model_running = false then (s, none)
      else
        let encoded : Option (Option String) :=
          if hasImage then
            match s.attached_image_path with
            | some p =>
              match readImage p with
              | some enc => some (some enc)
              | none => none
            | none => none
          else some none
        match encoded with
        | none => (s, none)
        | some encOpt =>
          let user_msg : Message :=
            { role := "user", content := user_text, images := encOpt.map (fun e => [e]) }
          let s1 :=
            if user_text ≠ "" then append_user s user_text
            else if hasImage then append_user s "Sent an image" else s
          ({ s1 with input := "", attached_image_path := none },
           some (m, [system_prompt, user_msg]))

/-- Re-rendering of one stored turn by `ChatApp.on_model_select`.
`pil` models `PIL_AVAILABLE`; `imageLoads` models whether
`Image.open` succeeds on a stored path. -/
def renderEntry (pil : Bool) (imageLoads : String → Bool) (sink : String) : Turn → String
  | .user txt => insertUserText sink txt
  | .assistant txt => insertAssistantText sink txt
  | .image path caption =>
    if pil ∧ path ≠ "" then
      if imageLoads path then appendImageSink sink caption
      else
        insertUserText sink
          (match caption with
           | some c => if c ≠ "" then c else "Image"
           | none => "Image")
    else sink

/-- `ChatApp.on_model_select` (chatbot.py lines 515-545): set the
current model and rebuild the transcript from that model's stored
turns.  The store itself is only read. -/
def on_model_select (pil : Bool) (imageLoads : String → Bool) (s : AppState) (m : String) :
    AppState :=
  { s with
    current_model := some m,
    sink := (turnsFor s.histories m).foldl (renderEntry pil imageLoads) "" }

/-! ## Streaming worker: `ChatApp._stream_response`
(chatbot.py lines 692-768). -/

/-- The accumulation loop `acc = ""; for chunk in ...: acc += chunk`. -/
def streamAccum (acc : String) : List String → String
  | [] => acc
  | c :: cs => streamAccum (acc ++ c) cs

/-- The successive values of `acc` pushed to the transcript by
`update_block`, one per received fragment. -/
def streamDisplayed (acc : String) : List String → List String
  | [] => []
  | c :: cs => (acc ++ c) :: streamDisplayed (acc ++ c) cs

/-- The sequence of displayed assistant texts during one streamed
reply. -/
def displayedStates (chunks : List String) : List String :=
  streamDisplayed "" chunks

/-- The history commit at the end of `_stream_response`: on an
exception nothing is written; otherwise `acc.strip()` is appended as
an assistant turn under `self.current_model` as read at stream end
(`model`, the send's model argument, is used only for the network
request).  `chunks` are the fragments delivered before termination. -/
def stream_response (model : String) (current_model : Option String)
    (hs : Histories) (chunks : List String) (errored : Bool) : Histories :=
  if errored then hs
  else
    let final_text := pyStrip (streamAccum "" chunks)
    if final_text ≠ "" then
      match current_model with
      | some m => if m ≠ "" then appendTurn hs m (.assistant final_text) else hs
      | none => hs
    else hs

example : displayedStates ["Hel", "lo, ", "world"] = ["Hel", "Hello, ", "Hello, world"] := by decide
example : stream_response "m1" (some "m1") [] ["He", "llo!"] false = [("m1", [.assistant "Hello!"])] := by decide

/-! ## `OllamaClient.upload_blob` (chatbot.py lines 111-122), with the
SHA-256 digest of `hashlib` modelled in full.  Bytes are naturals below
256; 32-bit words are naturals reduced modulo `2 ^ 32`. -/

/-- `2 ^ 32`, the word modulus. -/
def M32 : Nat := 4294967296

/-- 32-bit modular addition. -/
def add32 (a b : Nat) : Nat := (a + b) % M32

/-- 32-bit right rotation. -/
def rotr32 (n x : Nat) : Nat := ((x >>> n) ||| (x <<< (32 - n))) % M32

/-- SHA-256 `Ch`. -/
def shaCh (x y z : Nat) : Nat := (x &&& y) ^^^ ((x ^^^ 4294967295) &&& z)

/-- SHA-256 `Maj`. -/
def shaMaj (x y z : Nat) : Nat := (x &&& y) ^^^ (x &&& z) ^^^ (y &&& z)

/-- SHA-256 `Σ0`. -/
def bigS0 (x : Nat) : Nat := rotr32 2 x ^^^ rotr32 13 x ^^^ rotr32 22 x

/-- SHA-256 `Σ1`. -/
def bigS1 (x : Nat) : Nat := rotr32 6 x ^^^ rotr32 11 x ^^^ rotr32 25 x

/-- SHA-256 `σ0`. -/
def smallS0 (x : Nat) : Nat := rotr32 7 x ^^^ rotr32 18 x ^^^ (x >>> 3)

/-- SHA-256 `σ1`. -/
def smallS1 (x : Nat) : Nat := rotr32 17 x ^^^ rotr32 19 x ^^^ (x >>> 10)

/-- The 64 SHA-256 round constants (decimal). -/
def K256 : List Nat :=
  [1116352408, 1899447441, 3049323471, 3921009573, 961987163, 1508970993,
   2453635748, 2870763221, 3624381080, 310598401, 607225278, 1426881987,
   1925078388, 2162078206, 2614888103, 3248222580, 3835390401, 4022224774,
   264347078, 604807628, 770255983, 1249150122, 1555081692, 1996064986,
   2554220882, 2821834349, 2952996808, 3210313671, 3336571891, 3584528711,
   113926993, 338241895, 666307205, 773529912, 1294757372, 1396182291,
   1695183700, 1986661051, 2177026350, 2456956037, 2730485921, 2820302411,
   3259730800, 3345764771, 3516065817, 3600352804, 4094571909, 275423344,
   430227734, 506948616, 659060556, 883997877, 958139571, 1322822218,
   1537002063, 1747873779, 1955562222, 2024104815, 2227730452, 2361852424,
   2428436474, 2756734187, 3204031479, 3329325298]

/-- The SHA-256 initial hash value (decimal). -/
def H256 : List Nat :=
  [1779033703, 3144134277, 1013904242, 2773480762,
   1359893119, 2600822924, 528734635, 1541459225]

/-- The 8-byte big-endian encoding of the message bit length. -/
def lengthBytes (n : Nat) : List Nat :=
  [(n >>> 56) % 256, (n >>> 48) % 256, (n >>> 40) % 256, (n >>> 32) % 256,
   (n >>> 24) % 256, (n >>> 16) % 256, (n >>> 8) % 256, n % 256]

/-- SHA-256 padding: append `0x80`, zero bytes to 56 mod 64, then the
bit length. -/
def shaPad (msg : List Nat) : List Nat :=
  let L := msg.length
  let zeros := (119 - (L % 64)) % 64
  msg ++ 0x80 :: (List.replicate zeros 0 ++ lengthBytes (8 * L))

/-- Pack bytes into big-endian 32-bit words. -/
def toWords : List Nat → List Nat
  | a :: b :: c :: d :: rest => ((a <<< 24) ||| (b <<< 16) ||| (c <<< 8) ||| d) :: toWords rest
  | _ => []

/-- Split a word list into 16-word blocks. -/
def toBlocks : List Nat → List (List Nat)
  | w0 :: w1 :: w2 :: w3 :: w4 :: w5 :: w6 :: w7 :: w8 :: w9 :: w10 :: w11 :: w12 :: w13 :: w14 :: w15 :: rest =>
    [w0, w1, w2, w3, w4, w5, w6, w7, w8, w9, w10, w11, w12, w13, w14, w15] :: toBlocks rest
  | _ => []

/-- One step of the message-schedule extension. -/
def extendOnce (ws : Array Nat) : Array Nat :=
  let t := ws.size
  ws.push (add32 (add32 (smallS1 (ws.getD (t - 2) 0)) (ws.getD (t - 7) 0))
                 (add32 (smallS0 (ws.getD (t - 15) 0)) (ws.getD (t - 16) 0)))

/-- The 64-word message schedule of one block. -/
def schedule (block : List Nat) : List Nat :=
  ((List.range 48).foldl (fun a _ => extendOnce a) block.toArray).toList

/-- The eight SHA-256 working variables. -/
structure Sha8 where
  a : Nat
  b : Nat
  c : Nat
  d : Nat
  e : Nat
  f : Nat
  g : Nat
  h : Nat

/-- One compression round. -/
def shaRound (st : Sha8) (k w : Nat) : Sha8 :=
  let t1 := add32 st.h (add32 (bigS1 st.e) (add32 (shaCh st.e st.f st.g) (add32 k w)))
  let t2 := add32 (bigS0 st.a) (shaMaj st.a st.b st.c)
  { a := add32 t1 t2, b := st.a, c := st.b, d := st.c,
    e := add32 st.d t1, f := st.e, g := st.f, h := st.g }

/-- Compress one 16-word block into the running hash value. -/
def processBlock (hv : List Nat) (block : List Nat) : List Nat :=
  match hv with
  | [h0, h1, h2, h3, h4, h5, h6, h7] =>
    let ws := schedule block
    let st0 : Sha8 := ⟨h0, h1, h2, h3, h4, h5, h6, h7⟩
    let stF := (K256.zip ws).foldl (fun st kw => shaRound st kw.1 kw.2) st0
    [add32 h0 stF.a, add32 h1 stF.b, add32 h2 stF.c, add32 h3 stF.d,
     add32 h4 stF.e, add32 h5 stF.f, add32 h6 stF.g, add32 h7 stF.h]
  | _ => hv

/-- SHA-256 of a byte string, as eight 32-bit words. -/
def sha256 (msg : List Nat) : List Nat :=
  (toBlocks (toWords (shaPad msg))).foldl processBlock H256

/-- One lowercase hexadecimal digit. -/
def hexChar (n : Nat) : Char :=
  if n < 10 then Char.ofNat (48 + n) else Char.ofNat (87 + n)

/-- Eight lowercase hex digits of one 32-bit word. -/
def hexOfWord (w : Nat) : String :=
  String.mk [hexChar ((w >>> 28) &&& 15), hexChar ((w >>> 24) &&& 15),
             hexChar ((w >>> 20) &&& 15), hexChar ((w >>> 16) &&& 15),
             hexChar ((w >>> 12) &&& 15), hexChar ((w >>> 8) &&& 15),
             hexChar ((w >>> 4) &&& 15), hexChar (w &&& 15)]

/-- `hashlib.sha256(data).hexdigest()`. -/
def hexdigest (msg : List Nat) : String :=
  concatFragments ((sha256 msg).map hexOfWord)

/-- The HTTP methods `upload_blob` uses. -/
inductive HttpMethod where
  | put
  | post
deriving DecidableEq

/-- `requests.Response.raise_for_status()` raises exactly on 4xx/5xx
status codes. -/
def raiseable (status : Nat) : Bool := 400 ≤ status && status < 600

/-- `OllamaClient.upload_blob` (chatbot.py lines 111-122) against an
abstract server assigning a status code to each request.  Returns the
outcome (`Except` error status or digest identifier) together with the
trace of requests issued. -/
def upload_blob (server : HttpMethod → String → List Nat → Nat) (data : List Nat) :
    Except Nat String × List (HttpMethod × String) :=
  let digest := "sha256:" ++ hexdigest data
  let url := "/api/blobs/" ++ digest
  let put_status := server .put url data
  if put_status = 200 ∨ put_status = 201 then
    ((if raiseable put_status then .error put_status else .ok digest), [(.put, url)])
  else
    let post_status := server .post url data
    ((if raiseable post_status then .error post_status else .ok digest),
     [(.put, url), (.post, url)])

example : hexdigest [] = "e3b0c44298fc1c149afbf4c8996fb92427ae41e4649b934ca495991b7852b855" := by decide

/-! ## Supporting lemmas -/

theorem streamDisplayed_length (cs : List String) :
    ∀ acc, (streamDisplayed acc cs).length = cs.length := by
  induction cs with
  | nil => intro acc; rfl
  | cons c cs ih => intro acc; simp [streamDisplayed, ih]

theorem streamDisplayed_getElem (cs : List String) :
    ∀ (acc : String) (i : Nat), i < cs.length →
      (streamDisplayed acc cs)[i]? = some (acc ++ concatFragments (cs.take (i + 1))) := by
  induction cs with
  | nil => intro acc i h; exact absurd h (by simp)
  | cons c cs ih =>
    intro acc i h
    cases i with
    | zero =>
      simp [streamDisplayed, concatFragments, String.append_empty]
    | succ i =>
      have h2 : i < cs.length := by simpa using h
      calc (streamDisplayed acc (c :: cs))[i + 1]?
          = (streamDisplayed (acc ++ c) cs)[i]? := by simp [streamDisplayed]
        _ = some ((acc ++ c) ++ concatFragments (cs.take (i + 1))) := ih (acc ++ c) i h2
        _ = some (acc ++ concatFragments ((c :: cs).take (i + 2))) := by
              simp [concatFragments, String.append_assoc]

theorem streamAccum_eq (cs : List String) :
    ∀ acc, streamAccum acc cs = acc ++ concatFragments cs := by
  induction cs with
  | nil => intro acc; simp [streamAccum, concatFragments, String.append_empty]
  | cons c cs ih =>
    intro acc
    simp only [streamAccum, concatFragments, ih (acc ++ c), String.append_assoc]

/-- C1: During streaming of one assistant reply the displayed assistant
text passes through exactly the prefix concatenations of the fragment
sequence, in arrival order: one displayed state per fragment, the i-th
state being the concatenation of the first i+1 fragments, and on
fragments `["Hel", "lo, ", "world"]` exactly the texts `"Hel"`,
`"Hello, "`, `"Hello, world"`. -/
theorem stream_display_prefixes :
    (∀ chunks : List String, (displayedStates chunks).length = chunks.length)
    ∧ (∀ (chunks : List String) (i : Nat), i < chunks.length →
        (displayedStates chunks)[i]? = some (concatFragments (chunks.take (i + 1))))
    ∧ displayedStates ["Hel", "lo, ", "world"] = ["Hel", "Hello, ", "Hello, world"] := by
  refine ⟨fun chunks => streamDisplayed_length chunks "", fun chunks i h => ?_, by decide⟩
  rw [displayedStates, streamDisplayed_getElem chunks "" i h, String.empty_append]

/-- Witness for C1, at fragments `["Hel", "lo, ", "world"]` and
prefix length 2. -/
theorem stream_display_prefixes_witness :
    (displayedStates ["Hel", "lo, ", "world"])[1]? =
      some (concatFragments (["Hel", "lo, ", "world"].take 2)) :=
  stream_display_prefixes.2.1 ["Hel", "lo, ", "world"] 1 (by decide)

theorem hasModel_false_turnsFor (hs : Histories) (m : String)
    (h : hasModel hs m = false) : turnsFor hs m = [] := by
  induction hs with
  | nil => rfl
  | cons e rest ih =>
    obtain ⟨k, ts⟩ := e
    simp only [hasModel, Bool.or_eq_false_iff, beq_eq_false_iff_ne, ne_eq] at h
    simp [turnsFor, h.1, ih h.2]

theorem turnsFor_append_self (hs : Histories) (m : String) (ts : List Turn)
    (h : hasModel hs m = false) : turnsFor (hs ++ [(m, ts)]) m = ts := by
  induction hs with
  | nil => simp [turnsFor]
  | cons e rest ih =>
    obtain ⟨k, us⟩ := e
    simp only [hasModel, Bool.or_eq_false_iff, beq_eq_false_iff_ne, ne_eq] at h
    simp [turnsFor, h.1, ih h.2]

theorem turnsFor_append_other (hs : Histories) (m m' : String) (ts : List Turn)
    (h : m' ≠ m) : turnsFor (hs ++ [(m, ts)]) m' = turnsFor hs m' := by
  induction hs with
  | nil => simp [turnsFor, Ne.symm h]
  | cons e rest ih =>
    obtain ⟨k, us⟩ := e
    by_cases hk : k = m'
    · simp [turnsFor, hk]
    · simp [turnsFor, hk, ih]

theorem bumpEntry_eq_of_key (m : String) (t : Turn) (k : String) (us : List Turn)
    (h : k = m) : bumpEntry m t (k, us) = (k, us ++ [t]) := by
  simp [bumpEntry, h]

theorem bumpEntry_eq_of_ne (m : String) (t : Turn) (k : String) (us : List Turn)
    (h : ¬k = m) : bumpEntry m t (k, us) = (k, us) := by
  simp [bumpEntry, h]

theorem turnsFor_mapAppend_self (hs : Histories) (m : String) (t : Turn)
    (h : hasModel hs m = true) :
    turnsFor (hs.map (bumpEntry m t)) m = turnsFor hs m ++ [t] := by
  induction hs with
  | nil => simp [hasModel] at h
  | cons e rest ih =>
    obtain ⟨k, us⟩ := e
    by_cases hk : k = m
    · simp only [List.map_cons, bumpEntry_eq_of_key m t k us hk]
      simp [turnsFor, hk]
    · have h2 : hasModel rest m = true := by
        simp only [hasModel, Bool.or_eq_true, beq_iff_eq] at h
        exact h.resolve_left hk
      simp only [List.map_cons, bumpEntry_eq_of_ne m t k us hk]
      simp [turnsFor, hk, ih h2]

theorem turnsFor_mapAppend_other (hs : Histories) (m m' : String) (t : Turn)
    (h : m' ≠ m) :
    turnsFor (hs.map (bumpEntry m t)) m' = turnsFor hs m' := by
  induction hs with
  | nil => rfl
  | cons e rest ih =>
    obtain ⟨k, us⟩ := e
    by_cases hk : k = m
    · have hk2 : ¬k = m' := fun hkk => h (hkk ▸ hk)
      simp only [List.map_cons, bumpEntry_eq_of_key m t k us hk]
      simp [turnsFor, hk2, ih]
    · by_cases hk2 : k = m'
      · simp only [List.map_cons, bumpEntry_eq_of_ne m t k us hk]
        simp [turnsFor, hk2]
      · simp only [List.map_cons, bumpEntry_eq_of_ne m t k us hk]
        simp [turnsFor, hk2, ih]

theorem turnsFor_appendTurn_self (hs : Histories) (m : String) (t : Turn) :
    turnsFor (appendTurn hs m t) m = turnsFor hs m ++ [t] := by
  cases h : hasModel hs m
  · rw [appendTurn, h]
    simp only [Bool.false_eq_true, if_false]
    rw [turnsFor_append_self hs m [t] h, hasModel_false_turnsFor hs m h]
    simp
  · rw [appendTurn, h]
    simp only [if_true]
    exact turnsFor_mapAppend_self hs m t h

theorem turnsFor_appendTurn_other (hs : Histories) (m m' : String) (t : Turn)
    (h : m' ≠ m) : turnsFor (appendTurn hs m t) m' = turnsFor hs m' := by
  cases hm : hasModel hs m
  · rw [appendTurn, hm]
    simp only [Bool.false_eq_true, if_false]
    exact turnsFor_append_other hs m m' [t] h
  · rw [appendTurn, hm]
    simp only [if_true]
    exact turnsFor_mapAppend_other hs m m' t h

theorem clearEntry_eq_of_key (m k : String) (us : List Turn) (h : k = m) :
    clearEntry m (k, us) = (k, []) := by
  simp [clearEntry, h]

theorem clearEntry_eq_of_ne (m k : String) (us : List Turn) (h : ¬k = m) :
    clearEntry m (k, us) = (k, us) := by
  simp [clearEntry, h]

theorem turnsFor_clear_self (hs : Histories) (m : String) :
    turnsFor (clearHistory hs m) m = [] := by
  induction hs with
  | nil => rfl
  | cons e rest ih =>
    obtain ⟨k, us⟩ := e
    simp only [clearHistory, List.map_cons] at ih ⊢
    by_cases hk : k = m
    · rw [clearEntry_eq_of_key m k us hk]
      simp [turnsFor, hk]
    · rw [clearEntry_eq_of_ne m k us hk]
      simp [turnsFor, hk, ih]

theorem turnsFor_clear_other (hs : Histories) (m m' : String) (h : m' ≠ m) :
    turnsFor (clearHistory hs m) m' = turnsFor hs m' := by
  induction hs with
  | nil => rfl
  | cons e rest ih =>
    obtain ⟨k, us⟩ := e
    simp only [clearHistory, List.map_cons] at ih ⊢
    by_cases hk : k = m
    · have hk2 : ¬k = m' := fun hkk => h (hkk ▸ hk)
      rw [clearEntry_eq_of_key m k us hk]
      simp [turnsFor, hk2, ih]
    · by_cases hk2 : k = m'
      · rw [clearEntry_eq_of_ne m k us hk]
        simp [turnsFor, hk2]
      · rw [clearEntry_eq_of_ne m k us hk]
        simp [turnsFor, hk2, ih]

/-- C2 counterexample: with fragments `["hi "]` the stream ends
without error and the accumulated text `"hi "` is non-empty, yet the
committed turn holds the stripped text `"hi"`, not the full
accumulated concatenation; and with the non-empty accumulation `" "`
nothing is committed at all. -/
theorem stream_commit_strips_counterexample :
    turnsFor (stream_response "m" (some "m") [] ["hi "] false) "m" ≠
      [Turn.assistant (streamAccum "" ["hi "])]
    ∧ turnsFor (stream_response "m" (some "m") [] ["hi "] false) "m" =
        [Turn.assistant "hi"]
    ∧ streamAccum "" [" "] ≠ ""
    ∧ stream_response "m" (some "m") [] [" "] false = [] := by decide

/-- C2 (amended): an assistant turn is committed iff the stream ends
without error, the stripped accumulated text is non-empty and a model
is current; the committed text is the stripped accumulation
`acc.strip()`; on a transport error at any point the store is left
unchanged by the streaming worker. -/
theorem stream_commit_spec (model : String) (cur : Option String)
    (hs : Histories) (chunks : List String) :
    stream_response model cur hs chunks true = hs
    ∧ (pyStrip (concatFragments chunks) = "" →
        stream_response model cur hs chunks false = hs)
    ∧ (cur = none → stream_response model cur hs chunks false = hs)
    ∧ (∀ m, cur = some m → m ≠ "" → pyStrip (concatFragments chunks) ≠ "" →
        stream_response model cur hs chunks false =
          appendTurn hs m (Turn.assistant (pyStrip (concatFragments chunks)))) := by
  have hacc : streamAccum "" chunks = concatFragments chunks := by
    rw [streamAccum_eq, String.empty_append]
  refine ⟨rfl, ?_, ?_, ?_⟩
  · intro h
    simp [stream_response, hacc, h]
  · intro h
    subst h
    simp [stream_response]
  · intro m hm hm2 hne
    subst hm
    simp [stream_response, hacc, hne, hm2]

/-- Witness for C2, exercising every guarded branch at concrete
inputs. -/
theorem stream_commit_spec_witness :
    stream_response "m" (some "m") [] ["hi"] true = []
    ∧ stream_response "m" (some "m") [] [""] false = []
    ∧ stream_response "m" none [] ["hi"] false = []
    ∧ stream_response "m" (some "m") [] ["hi"] false =
        appendTurn [] "m" (Turn.assistant (pyStrip (concatFragments ["hi"]))) :=
  ⟨(stream_commit_spec "m" (some "m") [] ["hi"]).1,
   (stream_commit_spec "m" (some "m") [] [""]).2.1 (by decide),
   (stream_commit_spec "m" none [] ["hi"]).2.2.1 rfl,
   (stream_commit_spec "m" (some "m") [] ["hi"]).2.2.2 "m" rfl (by decide) (by decide)⟩

/-- C8 counterexample: a send issued against model `"m1"` whose stream
ends while `"m2"` is the active model commits the assistant turn to
`"m2"`, not to the send's model `"m1"`. -/
theorem commit_model_key_counterexample :
    turnsFor (stream_response "m1" (some "m2") [("m1", [Turn.user "hi"])] ["Hello"] false) "m1"
      = [Turn.user "hi"]
    ∧ turnsFor (stream_response "m1" (some "m2") [("m1", [Turn.user "hi"])] ["Hello"] false) "m2"
      = [Turn.assistant "Hello"] := by decide

/-- C8 (amended): switching the active model never mutates any model's
stored turn sequence; the streamed assistant turn is committed to the
history of whichever model is current when the stream ends — the
commit is independent of the send's own model argument, which is used
only for the network request. -/
theorem model_switch_commit_spec :
    (∀ (pil : Bool) (f : String → Bool) (s : AppState) (m : String),
        (on_model_select pil f s m).histories = s.histories
        ∧ (on_model_select pil f s m).current_model = some m)
    ∧ (∀ (model1 model2 : String) (cur : Option String) (hs : Histories)
          (chunks : List String) (e : Bool),
        stream_response model1 cur hs chunks e = stream_response model2 cur hs chunks e)
    ∧ (∀ (model m : String) (hs : Histories) (chunks : List String),
        m ≠ "" → pyStrip (concatFragments chunks) ≠ "" →
        stream_response model (some m) hs chunks false =
          appendTurn hs m (Turn.assistant (pyStrip (concatFragments chunks)))) := by
  have hacc : ∀ chunks : List String, streamAccum "" chunks = concatFragments chunks := by
    intro chunks
    rw [streamAccum_eq, String.empty_append]
  refine ⟨fun pil f s m => ⟨rfl, rfl⟩, fun _ _ _ _ _ _ => rfl, ?_⟩
  intro model m hs chunks hm hne
  simp [stream_response, hacc, hne, hm]

/-- Witness for C8, at a concrete state with histories for `"m1"` and
a stream ending while `"m2"` is current. -/
theorem model_switch_commit_spec_witness :
    (on_model_select true (fun _ => true)
        ⟨some "m1", [("m1", [Turn.user "hi"])], true, "", none, ""⟩ "m2").histories
      = [("m1", [Turn.user "hi"])]
    ∧ stream_response "m1" (some "m2") [("m1", [Turn.user "hi"])] ["Hello"] false =
        appendTurn [("m1", [Turn.user "hi"])] "m2"
          (Turn.assistant (pyStrip (concatFragments ["Hello"]))) :=
  ⟨(model_switch_commit_spec.1 true (fun _ => true)
      ⟨some "m1", [("m1", [Turn.user "hi"])], true, "", none, ""⟩ "m2").1,
   model_switch_commit_spec.2.2 "m1" "m2" [("m1", [Turn.user "hi"])] ["Hello"]
     (by decide) (by decide)⟩

/-- C3 counterexample: for `{"message": {"content": []}}` the claim's
step 3 prescribes returning the concatenation over the (empty) parts
list, i.e. `""`; the code instead matches nothing and returns the
no-extraction signal. -/
theorem extract_empty_parts_counterexample :
    extract_text_from_obj (.obj [("message", .obj [("content", .arr [])])]) = none
    ∧ extract_text_from_obj (.obj [("message", .obj [("content", .arr [])])]) ≠ some "" := by
  exact ⟨rfl, fun h => Option.noConfusion h⟩

/-- C3 (amended): the resolution order holds with first match winning —
a string is returned itself; an object's first string-valued field
among `response, text, generated_text, output_text, content` (in that
order) is returned; otherwise an embedded truthy `message` (or `msg`)
object is inspected, preferring its `content` then `text` string
field; if its `content` is instead a list, each dict part contributes
its `text`-or-`content` string value (Python `or`, non-strings
skipped), and the concatenation is returned only when at least one
part contributed — otherwise resolution falls through (to `delta`,
`choices`, then the no-extraction signal). -/
theorem extract_resolution_spec :
    (∀ s, extract_text_from_obj (.str s) = some s)
    ∧ (∀ fields s, firstStringIn fields keys5 = some s →
        extract_text_from_obj (.obj fields) = some s)
    ∧ (∀ fields mf,
        firstStringIn fields keys5 = none →
        pyOrOpt (jGet fields "message") (jGet fields "msg") = some (.obj mf) →
        ((∀ s, jGet mf "content" = some (.str s) →
            extract_text_from_obj (.obj fields) = some s)
         ∧ (∀ s, (∀ s2, jGet mf "content" ≠ some (.str s2)) →
              jGet mf "text" = some (.str s) →
              extract_text_from_obj (.obj fields) = some s)
         ∧ (∀ parts, jGet mf "content" = some (.arr parts) →
              (∀ s2, jGet mf "text" ≠ some (.str s2)) →
              parts.filterMap partText ≠ [] →
              extract_text_from_obj (.obj fields) =
                some (concatFragments (parts.filterMap partText))))) := by
  refine ⟨fun s => rfl, fun fields s h => by simp [extract_text_from_obj, h], ?_⟩
  intro fields mf h1 h2
  refine ⟨?_, ?_, ?_⟩
  · intro s hc
    have hm : msgExtract fields = some s := by
      simp [msgExtract, h2, msgFieldExtract, hc]
    simp [extract_text_from_obj, h1, hm]
  · intro s hcn hc
    have hm : msgExtract fields = some s := by
      rw [msgExtract, h2]
      cases hcc : jGet mf "content" with
      | none => simp [msgFieldExtract, hcc, hc]
      | some j =>
        cases j with
        | str s2 => exact absurd hcc (hcn s2)
        | null => simp [msgFieldExtract, hcc, hc]
        | bool b => simp [msgFieldExtract, hcc, hc]
        | num n => simp [msgFieldExtract, hcc, hc]
        | arr xs => simp [msgFieldExtract, hcc, hc]
        | obj fs => simp [msgFieldExtract, hcc, hc]
    simp [extract_text_from_obj, h1, hm]
  · intro parts hcp htn hne
    have hm : msgExtract fields =
        some (concatFragments (parts.filterMap partText)) := by
      rw [msgExtract, h2]
      cases htt : jGet mf "text" with
      | none => simp [msgFieldExtract, hcp, htt, hne]
      | some j =>
        cases j with
        | str s2 => exact absurd htt (htn s2)
        | null => simp [msgFieldExtract, hcp, htt, hne]
        | bool b => simp [msgFieldExtract, hcp, htt, hne]
        | num n => simp [msgFieldExtract, hcp, htt, hne]
        | arr xs => simp [msgFieldExtract, hcp, htt, hne]
        | obj fs => simp [msgFieldExtract, hcp, htt, hne]
    simp [extract_text_from_obj, h1, hm]

/-- Witness for C3, exercising the string, priority-field, message
`content`, message `text` and parts-list branches at concrete
inputs. -/
theorem extract_resolution_spec_witness :
    extract_text_from_obj (.str "plain") = some "plain"
    ∧ extract_text_from_obj (.obj [("generated_text", .str "G")]) = some "G"
    ∧ extract_text_from_obj (.obj [("message", .obj [("content", .str "C")])]) = some "C"
    ∧ extract_text_from_obj (.obj [("msg", .obj [("text", .str "T")])]) = some "T"
    ∧ extract_text_from_obj
        (.obj [("message", .obj [("content", .arr [.obj [("text", .str "a")], .num 3])])]) =
        some (concatFragments
          ([Json.obj [("text", Json.str "a")], Json.num 3].filterMap partText)) :=
  ⟨extract_resolution_spec.1 "plain",
   extract_resolution_spec.2.1 [("generated_text", .str "G")] "G" (by decide),
   (extract_resolution_spec.2.2 [("message", .obj [("content", .str "C")])]
      [("content", .str "C")] (by decide) rfl).1 "C" rfl,
   (extract_resolution_spec.2.2 [("msg", .obj [("text", .str "T")])]
      [("text", .str "T")] (by decide) rfl).2.1 "T"
      (fun s2 h => Option.noConfusion h) rfl,
   (extract_resolution_spec.2.2
      [("message", .obj [("content", .arr [.obj [("text", .str "a")], .num 3])])]
      [("content", .arr [.obj [("text", .str "a")], .num 3])] (by decide) rfl).2.2
      [.obj [("text", .str "a")], .num 3] rfl
      (fun s2 h => Option.noConfusion h) (by decide)⟩

theorem firstStringIn_none_iff (fields : List (String × Json)) (ks : List String) :
    firstStringIn fields ks = none ↔ ks.any (fun k => optIsStr (jGet fields k)) = false := by
  induction ks with
  | nil => simp [firstStringIn]
  | cons k ks ih =>
    cases o : jGet fields k with
    | none => simp [firstStringIn, o, optIsStr, ih]
    | some j => cases j <;> simp [firstStringIn, o, optIsStr, ih]

theorem msgFieldExtract_none_iff (mf : List (String × Json)) :
    msgFieldExtract mf = none ↔ msgFieldMatch mf = false := by
  cases hc : jGet mf "content" with
  | none =>
    cases ht : jGet mf "text" with
    | none => simp [msgFieldExtract, msgFieldMatch, hc, ht, optIsStr]
    | some j2 => cases j2 <;> simp [msgFieldExtract, msgFieldMatch, hc, ht, optIsStr]
  | some j =>
    cases j with
    | str s => simp [msgFieldExtract, msgFieldMatch, hc, optIsStr]
    | arr parts =>
      cases ht : jGet mf "text" with
      | none =>
        simp [msgFieldExtract, msgFieldMatch, hc, ht, optIsStr]
      | some j2 =>
        cases j2 with
        | str s2 => simp [msgFieldExtract, msgFieldMatch, hc, ht, optIsStr]
        | null =>
          simp [msgFieldExtract, msgFieldMatch, hc, ht, optIsStr]
        | bool b =>
          simp [msgFieldExtract, msgFieldMatch, hc, ht, optIsStr]
        | num n =>
          simp [msgFieldExtract, msgFieldMatch, hc, ht, optIsStr]
        | arr a2 =>
          simp [msgFieldExtract, msgFieldMatch, hc, ht, optIsStr]
        | obj o2 =>
          simp [msgFieldExtract, msgFieldMatch, hc, ht, optIsStr]
    | null =>
      cases ht : jGet mf "text" with
      | none => simp [msgFieldExtract, msgFieldMatch, hc, ht, optIsStr]
      | some j2 => cases j2 <;> simp [msgFieldExtract, msgFieldMatch, hc, ht, optIsStr]
    | bool b =>
      cases ht : jGet mf "text" with
      | none => simp [msgFieldExtract, msgFieldMatch, hc, ht, optIsStr]
      | some j2 => cases j2 <;> simp [msgFieldExtract, msgFieldMatch, hc, ht, optIsStr]
    | num n =>
      cases ht : jGet mf "text" with
      | none => simp [msgFieldExtract, msgFieldMatch, hc, ht, optIsStr]
      | some j2 => cases j2 <;> simp [msgFieldExtract, msgFieldMatch, hc, ht, optIsStr]
    | obj fs =>
      cases ht : jGet mf "text" with
      | none => simp [msgFieldExtract, msgFieldMatch, hc, ht, optIsStr]
      | some j2 => cases j2 <;> simp [msgFieldExtract, msgFieldMatch, hc, ht, optIsStr]

theorem msgExtract_none_iff (fields : List (String × Json)) :
    msgExtract fields = none ↔ msgMatch fields = false := by
  cases hp : pyOrOpt (jGet fields "message") (jGet fields "msg") with
  | none => simp [msgExtract, msgMatch, hp]
  | some j => cases j <;> simp [msgExtract, msgMatch, hp, msgFieldExtract_none_iff]

theorem deltaExtract_none_iff (fields : List (String × Json)) :
    deltaExtract fields = none ↔ deltaMatch fields = false := by
  cases hd : jGet fields "delta" with
  | none => simp [deltaExtract, deltaMatch, hd]
  | some j =>
    cases j with
    | obj df =>
      cases hc : jGet df "content" with
      | none =>
        cases ht : jGet df "text" with
        | none => simp [deltaExtract, deltaMatch, hd, hc, ht, optIsStr]
        | some j2 => cases j2 <;> simp [deltaExtract, deltaMatch, hd, hc, ht, optIsStr]
      | some j1 =>
        cases j1 with
        | str s => simp [deltaExtract, deltaMatch, hd, hc, optIsStr]
        | null =>
          cases ht : jGet df "text" with
          | none => simp [deltaExtract, deltaMatch, hd, hc, ht, optIsStr]
          | some j2 => cases j2 <;> simp [deltaExtract, deltaMatch, hd, hc, ht, optIsStr]
        | bool b =>
          cases ht : jGet df "text" with
          | none => simp [deltaExtract, deltaMatch, hd, hc, ht, optIsStr]
          | some j2 => cases j2 <;> simp [deltaExtract, deltaMatch, hd, hc, ht, optIsStr]
        | num n =>
          cases ht : jGet df "text" with
          | none => simp [deltaExtract, deltaMatch, hd, hc, ht, optIsStr]
          | some j2 => cases j2 <;> simp [deltaExtract, deltaMatch, hd, hc, ht, optIsStr]
        | arr a1 =>
          cases ht : jGet df "text" with
          | none => simp [deltaExtract, deltaMatch, hd, hc, ht, optIsStr]
          | some j2 => cases j2 <;> simp [deltaExtract, deltaMatch, hd, hc, ht, optIsStr]
        | obj o1 =>
          cases ht : jGet df "text" with
          | none => simp [deltaExtract, deltaMatch, hd, hc, ht, optIsStr]
          | some j2 => cases j2 <;> simp [deltaExtract, deltaMatch, hd, hc, ht, optIsStr]
    | null => simp [deltaExtract, deltaMatch, hd]
    | bool b => simp [deltaExtract, deltaMatch, hd]
    | num n => simp [deltaExtract, deltaMatch, hd]
    | str s => simp [deltaExtract, deltaMatch, hd]
    | arr xs => simp [deltaExtract, deltaMatch, hd]

theorem choicesExtract_none_iff (fields : List (String × Json)) :
    choicesExtract fields = none ↔ choicesMatch fields = false := by
  cases hch : jGet fields "choices" with
  | none => simp [choicesExtract, choicesMatch, hch]
  | some j =>
    cases j with
    | arr chs =>
      simp [choicesExtract, choicesMatch, hch]
    | null => simp [choicesExtract, choicesMatch, hch]
    | bool b => simp [choicesExtract, choicesMatch, hch]
    | num n => simp [choicesExtract, choicesMatch, hch]
    | str s => simp [choicesExtract, choicesMatch, hch]
    | obj fs => simp [choicesExtract, choicesMatch, hch]

theorem extract_none_iff_obj (fields : List (String × Json)) :
    extract_text_from_obj (.obj fields) = none ↔
      (priorityMatch fields || msgMatch fields || deltaMatch fields ||
        choicesMatch fields) = false := by
  cases h1 : firstStringIn fields keys5 with
  | some s =>
    have ha : priorityMatch fields = true := by
      cases hb : priorityMatch fields
      · rw [priorityMatch] at hb
        exact absurd ((firstStringIn_none_iff fields keys5).mpr hb) (by simp [h1])
      · rfl
    simp [extract_text_from_obj, h1, ha]
  | none =>
    have ha : priorityMatch fields = false := by
      rw [priorityMatch]
      exact (firstStringIn_none_iff fields keys5).mp h1
    cases h2 : msgExtract fields with
    | some s =>
      have hm : msgMatch fields = true := by
        cases hb : msgMatch fields
        · exact absurd ((msgExtract_none_iff fields).mpr hb) (by simp [h2])
        · rfl
      simp [extract_text_from_obj, h1, h2, ha, hm]
    | none =>
      have hm : msgMatch fields = false := (msgExtract_none_iff fields).mp h2
      cases h3 : deltaExtract fields with
      | some s =>
        have hd2 : deltaMatch fields = true := by
          cases hb : deltaMatch fields
          · exact absurd ((deltaExtract_none_iff fields).mpr hb) (by simp [h3])
          · rfl
        simp [extract_text_from_obj, h1, h2, h3, ha, hm, hd2]
      | none =>
        have hd2 : deltaMatch fields = false := (deltaExtract_none_iff fields).mp h3
        simp [extract_text_from_obj, h1, h2, h3, ha, hm, hd2,
              choicesExtract_none_iff]

/-- C4: `extract_text_from_obj` yields the no-extraction signal exactly
on the decoded JSON values matching none of the five documented shape
categories — including non-string non-object values (null, booleans,
numbers, lists) and near-miss objects whose recognized keys hold
non-matching values; the function is total on decoded JSON values (it
never raises by construction). -/
theorem extract_unmatched_none :
    (∀ j, extract_text_from_obj j = none ↔ matchesShapeCategory j = false)
    ∧ extract_text_from_obj .null = none
    ∧ (∀ b, extract_text_from_obj (.bool b) = none)
    ∧ (∀ n, extract_text_from_obj (.num n) = none)
    ∧ (∀ xs, extract_text_from_obj (.arr xs) = none)
    ∧ extract_text_from_obj (.obj [("response", .num 5)]) = none
    ∧ extract_text_from_obj (.obj [("message", .obj [("content", .num 5)])]) = none
    ∧ extract_text_from_obj (.obj [("choices", .arr [])]) = none := by
  refine ⟨?_, rfl, fun b => rfl, fun n => rfl, fun xs => rfl, rfl, rfl, rfl⟩
  intro j
  cases j with
  | str s => simp [extract_text_from_obj, matchesShapeCategory]
  | obj fields => simpa [matchesShapeCategory] using extract_none_iff_obj fields
  | null => simp [extract_text_from_obj, matchesShapeCategory]
  | bool b => simp [extract_text_from_obj, matchesShapeCategory]
  | num n => simp [extract_text_from_obj, matchesShapeCategory]
  | arr xs => simp [extract_text_from_obj, matchesShapeCategory]

/-- Witness for C4, at a near-miss object holding every recognized key
with a non-matching value. -/
theorem extract_unmatched_none_witness :
    extract_text_from_obj (.obj [("response", .num 5), ("text", .null),
      ("message", .obj [("content", .num 5), ("text", .bool true)]),
      ("delta", .obj [("content", .null)]),
      ("choices", .arr [.obj [("text", .num 1)], .num 2])]) = none :=
  (extract_unmatched_none.1 (.obj [("response", .num 5), ("text", .null),
      ("message", .obj [("content", .num 5), ("text", .bool true)]),
      ("delta", .obj [("content", .null)]),
      ("choices", .arr [.obj [("text", .num 1)], .num 2])])).mpr rfl

/-- C5: per-line dispatch of `chat_stream` — empty lines emit nothing;
a non-empty line that fails JSON decoding emits the raw line verbatim;
a decoded line with no extraction emits the line's original text; a
decoded line with an extraction emits exactly the extracted text; no
non-empty line is silently dropped; and lines are processed in order
by concatenation. -/
theorem chat_stream_line_spec (decode : String → Option Json) (line : String) :
    processLine decode "" = []
    ∧ (line ≠ "" → decode line = none → processLine decode line = [line])
    ∧ (∀ j, line ≠ "" → decode line = some j → extract_text_from_obj j = none →
        processLine decode line = [line])
    ∧ (∀ j t, line ≠ "" → decode line = some j → extract_text_from_obj j = some t →
        processLine decode line = [t])
    ∧ (line ≠ "" → processLine decode line ≠ [])
    ∧ (∀ rest : List String, chat_stream_lines decode (line :: rest) =
        processLine decode line ++ chat_stream_lines decode rest) := by
  refine ⟨rfl, ?_, ?_, ?_, ?_, ?_⟩
  · intro hl hd
    simp [processLine, hl, hd]
  · intro j hl hd he
    simp [processLine, hl, hd, he]
  · intro j t hl hd he
    simp [processLine, hl, hd, he]
  · intro hl
    simp only [processLine, hl, if_false]
    cases hd : decode line with
    | none => simp
    | some j => cases he : extract_text_from_obj j <;> simp [he]
  · intro rest
    simp [chat_stream_lines]

/-- A concrete decoder used by the C5 witness: `"a"` decodes to an
extractable object, `"b"` to a non-extractable number, everything else
fails to decode. -/
def decode0 : String → Option Json := fun l =>
  if l = "a" then some (.obj [("response", .str "A")])
  else if l = "b" then some (.num 3)
  else none

/-- Witness for C5, exercising every per-line branch. -/
theorem chat_stream_line_spec_witness :
    processLine decode0 "" = []
    ∧ processLine decode0 "x" = ["x"]
    ∧ processLine decode0 "b" = ["b"]
    ∧ processLine decode0 "a" = ["A"]
    ∧ processLine decode0 "x" ≠ []
    ∧ chat_stream_lines decode0 ["a", "b"] =
        processLine decode0 "a" ++ chat_stream_lines decode0 ["b"] :=
  ⟨(chat_stream_line_spec decode0 "").1,
   (chat_stream_line_spec decode0 "x").2.1 (by decide) rfl,
   (chat_stream_line_spec decode0 "b").2.2.1 (.num 3) (by decide) rfl rfl,
   (chat_stream_line_spec decode0 "a").2.2.2.1 (.obj [("response", .str "A")]) "A"
     (by decide) rfl rfl,
   (chat_stream_line_spec decode0 "x").2.2.2.2.1 (by decide),
   (chat_stream_line_spec decode0 "a").2.2.2.2.2 ["b"]⟩

/-- C6: a send whose stripped composed input exactly equals one of the
three reserved control tokens, with no image attached and a model
selected, performs only the local control action — clear resets the
active model's history and the sink, start sets the running flag,
stop clears it — appends no turn, opens no network connection (the
launch component is `none`), and double start/stop leaves the flag
value unchanged; clearing empties exactly the active model's
turn sequence. -/
theorem control_token_spec (readImage : String → Option String) (s : AppState) (m : String)
    (hm : s.current_model = some m) (hm2 : m ≠ "") (hi : s.attached_image_path = none) :
    (pyStrip s.input = CLEAR_TOKEN →
        on_send readImage s =
          ({ s with histories := clearHistory s.histories m, sink := "", input := "" }, none))
    ∧ (pyStrip s.input = START_TOKEN →
        on_send readImage s = ({ s with model_running := true, input := "" }, none))
    ∧ (pyStrip s.input = STOP_TOKEN →
        on_send readImage s = ({ s with model_running := false, input := "" }, none))
    ∧ turnsFor (clearHistory s.histories m) m = []
    ∧ (∀ m2, m2 ≠ m → turnsFor (clearHistory s.histories m) m2 = turnsFor s.histories m2) := by
  refine ⟨?_, ?_, ?_, turnsFor_clear_self s.histories m,
          fun m2 h2 => turnsFor_clear_other s.histories m m2 h2⟩
  · intro ht
    simp [on_send, hm, hm2, hi, ht, optTruthy, CLEAR_TOKEN,
          handle_special_token]
  · intro ht
    cases hr : s.model_running
    · simp [on_send, hm, hm2, hi, ht, optTruthy, CLEAR_TOKEN, START_TOKEN,
            handle_special_token, hr]
    · simp [on_send, hm, hm2, hi, ht, optTruthy, CLEAR_TOKEN, START_TOKEN,
            handle_special_token, hr]
  · intro ht
    cases hr : s.model_running
    · simp [on_send, hm, hm2, hi, ht, optTruthy, CLEAR_TOKEN, START_TOKEN,
            STOP_TOKEN, handle_special_token, hr]
    · simp [on_send, hm, hm2, hi, ht, optTruthy, CLEAR_TOKEN, START_TOKEN,
            STOP_TOKEN, handle_special_token, hr]

/-- Witness for C6, at concrete states for each of the three tokens
(start while already running, stop while running). -/
theorem control_token_spec_witness :
    on_send (fun _ => none)
        ⟨some "m1", [("m1", [Turn.user "x"]), ("m2", [Turn.user "y"])], true, " § ", none, "t"⟩ =
      ({ current_model := some "m1",
         histories := clearHistory [("m1", [Turn.user "x"]), ("m2", [Turn.user "y"])] "m1",
         model_running := true, input := "", attached_image_path := none, sink := "" }, none)
    ∧ on_send (fun _ => none) ⟨some "m1", [], true, "▶", none, ""⟩ =
        ({ current_model := some "m1", histories := [], model_running := true,
           input := "", attached_image_path := none, sink := "" }, none)
    ∧ on_send (fun _ => none) ⟨some "m1", [], true, "■", none, ""⟩ =
        ({ current_model := some "m1", histories := [], model_running := false,
           input := "", attached_image_path := none, sink := "" }, none) :=
  ⟨(control_token_spec (fun _ => none)
      ⟨some "m1", [("m1", [Turn.user "x"]), ("m2", [Turn.user "y"])], true, " § ", none, "t"⟩
      "m1" rfl (by decide) rfl).1 (by decide),
   (control_token_spec (fun _ => none) ⟨some "m1", [], true, "▶", none, ""⟩
      "m1" rfl (by decide) rfl).2.1 (by decide),
   (control_token_spec (fun _ => none) ⟨some "m1", [], true, "■", none, ""⟩
      "m1" rfl (by decide) rfl).2.2.1 (by decide)⟩

/-- C7: while the running flag is false, any send whose stripped input
is not a control token is rejected: no stream is launched
(`chat_stream` is never called), no turn is appended, and the state is
left unchanged. -/
theorem stopped_send_rejected (readImage : String → Option String) (s : AppState)
    (hrun : s.model_running = false)
    (h1 : pyStrip s.input ≠ CLEAR_TOKEN)
    (h2 : pyStrip s.input ≠ START_TOKEN)
    (h3 : pyStrip s.input ≠ STOP_TOKEN) :
    on_send readImage s = (s, none) := by
  have htok : ¬((pyStrip s.input = CLEAR_TOKEN ∨ pyStrip s.input = START_TOKEN ∨
      pyStrip s.input = STOP_TOKEN) ∧ optTruthy s.attached_image_path = false) := by
    rintro ⟨hc, -⟩
    rcases hc with hc | hc | hc
    · exact h1 hc
    · exact h2 hc
    · exact h3 hc
  cases hm : s.current_model with
  | none => simp [on_send, hm]
  | some m =>
    by_cases hm0 : m = ""
    · simp [on_send, hm, hm0]
    · by_cases he : pyStrip s.input = "" ∧ optTruthy s.attached_image_path = false
      · simp [on_send, hm, hm0, he]
      · simp [on_send, hm, hm0, he, htok, hrun]

/-- Witness for C7, at a stopped state with ordinary input. -/
theorem stopped_send_rejected_witness :
    on_send (fun _ => none) ⟨some "m1", [], false, "hello", none, ""⟩ =
      (⟨some "m1", [], false, "hello", none, ""⟩, none) :=
  stopped_send_rejected (fun _ => none) ⟨some "m1", [], false, "hello", none, ""⟩
    rfl (by decide) (by decide) (by decide)

theorem modelName_eq_claim (e : Json)
    (he : (∃ s, e = .str s) ∨
      (∃ fields nm, e = .obj fields ∧ jGet fields "name" = some (.str nm))) :
    displayModelName (modelEntryName e) = claimIdentifier e := by
  rcases he with ⟨s, rfl⟩ | ⟨fields, nm, rfl, hnm⟩
  · rfl
  · simp [modelEntryName, displayModelName, claimIdentifier, hnm, pyStr]

/-- C9: for entries that are plain strings or objects with a string
`name` field, the listing pipeline normalizes the plain-array shape
and the `tags`-wrapper shape to the same identifier list, and that
list is exactly the claimed per-entry identifier (the string itself or
the object's `name`). -/
theorem list_models_shapes (es : List Json)
    (h : ∀ e ∈ es, (∃ s, e = .str s) ∨
      (∃ fields nm, e = .obj fields ∧ jGet fields "name" = some (.str nm))) :
    listed_model_names (.arr es) = listed_model_names (.obj [("tags", .arr es)])
    ∧ listed_model_names (.arr es) = es.map claimIdentifier := by
  refine ⟨rfl, ?_⟩
  simp only [listed_model_names, list_models, refresh_model_names]
  exact List.map_congr_left (fun e he => modelName_eq_claim e (h e he))

/-- Witness for C9, at a mixed list of the two entry shapes. -/
theorem list_models_shapes_witness :
    listed_model_names (.arr [.str "a", .obj [("name", .str "b")]]) =
        listed_model_names (.obj [("tags", .arr [.str "a", .obj [("name", .str "b")]])])
    ∧ listed_model_names (.arr [.str "a", .obj [("name", .str "b")]]) =
        [Json.str "a", Json.obj [("name", Json.str "b")]].map claimIdentifier :=
  list_models_shapes [.str "a", .obj [("name", .str "b")]] (by
    intro e he
    cases he with
    | head => exact Or.inl ⟨"a", rfl⟩
    | tail _ h2 =>
      cases h2 with
      | head => exact Or.inr ⟨[("name", .str "b")], "b", rfl, rfl⟩
      | tail _ h3 => cases h3)

/-- C10: the identifier computed by `upload_blob` is always
`sha256:<hex of the SHA-256 digest of exactly the uploaded bytes>`, so
uploads of identical bytes yield identical identifiers regardless of
server behavior; and whenever the PUT status is outside {200, 201},
exactly one retry as POST to the same resource path is issued, while
an accepted PUT issues no retry. -/
theorem upload_blob_spec (server : HttpMethod → String → List Nat → Nat) (data : List Nat) :
    (∀ d, (upload_blob server data).1 = .ok d → d = "sha256:" ++ hexdigest data)
    ∧ (∀ (server2 : HttpMethod → String → List Nat → Nat) (d1 d2 : String),
        (upload_blob server data).1 = .ok d1 → (upload_blob server2 data).1 = .ok d2 →
        d1 = d2)
    ∧ (server .put ("/api/blobs/" ++ ("sha256:" ++ hexdigest data)) data ≠ 200 →
       server .put ("/api/blobs/" ++ ("sha256:" ++ hexdigest data)) data ≠ 201 →
        (upload_blob server data).2 =
          [(HttpMethod.put, "/api/blobs/" ++ ("sha256:" ++ hexdigest data)),
           (HttpMethod.post, "/api/blobs/" ++ ("sha256:" ++ hexdigest data))])
    ∧ (server .put ("/api/blobs/" ++ ("sha256:" ++ hexdigest data)) data = 200 ∨
       server .put ("/api/blobs/" ++ ("sha256:" ++ hexdigest data)) data = 201 →
        (upload_blob server data).2 =
          [(HttpMethod.put, "/api/blobs/" ++ ("sha256:" ++ hexdigest data))]) := by
  have key : ∀ (srv : HttpMethod → String → List Nat → Nat) (d : String),
      (upload_blob srv data).1 = .ok d → d = "sha256:" ++ hexdigest data := by
    intro srv d h
    simp only [upload_blob] at h
    split at h
    · split at h
      · exact Except.noConfusion h
      · exact (Except.ok.inj h).symm
    · split at h
      · exact Except.noConfusion h
      · exact (Except.ok.inj h).symm
  refine ⟨key server, fun server2 d1 d2 ha hb => (key server d1 ha).trans (key server2 d2 hb).symm,
          ?_, ?_⟩
  · intro hp1 hp2
    have hc : ¬(server .put ("/api/blobs/" ++ ("sha256:" ++ hexdigest data)) data = 200 ∨
        server .put ("/api/blobs/" ++ ("sha256:" ++ hexdigest data)) data = 201) := by
      rintro (hx | hx)
      · exact hp1 hx
      · exact hp2 hx
    simp only [upload_blob, hc, if_false]
  · intro hp
    simp only [upload_blob, hp, if_true]

/-- Server accepting every request (used by the C10 witness). -/
def srvOk : HttpMethod → String → List Nat → Nat := fun _ _ _ => 200

/-- Server rejecting PUT with 404 and accepting the POST retry (used
by the C10 witness). -/
def srvPutRejected : HttpMethod → String → List Nat → Nat := fun m _ _ =>
  match m with
  | .put => 404
  | .post => 201

/-- Witness for C10: a successful upload returns the content digest
identifier, a rejected PUT is retried exactly once as POST to the same
path, and an accepted PUT issues a single request. -/
theorem upload_blob_spec_witness :
    ("sha256:" ++ hexdigest [97]) = ("sha256:" ++ hexdigest [97])
    ∧ (upload_blob srvPutRejected [97]).2 =
        [(HttpMethod.put, "/api/blobs/" ++ ("sha256:" ++ hexdigest [97])),
         (HttpMethod.post, "/api/blobs/" ++ ("sha256:" ++ hexdigest [97]))]
    ∧ (upload_blob srvOk [97]).2 =
        [(HttpMethod.put, "/api/blobs/" ++ ("sha256:" ++ hexdigest [97]))] :=
  ⟨(upload_blob_spec srvOk [97]).1 ("sha256:" ++ hexdigest [97]) rfl,
   (upload_blob_spec srvPutRejected [97]).2.2.1 (by decide) (by decide),
   (upload_blob_spec srvOk [97]).2.2.2 (Or.inl rfl)⟩

end Chatbot
